import Mathlib

/-!
Verification of the SPI-master Verilator testbench drivers
(`sim_chisel_spi.cpp`, `sim_bitrev_spi.cpp`, `sim_spi_top.cpp`,
`sim_qspi_psram.cpp`) against their natural-language specification.

The simulated hardware model (the Verilated DUT) is an external
collaborator: it is embedded as an abstract machine `Model I S` with an
`eval` step over the driver-visible input signals `I`, a state type `S`,
and the driver-visible outputs (readiness/acknowledge, read data, and the
MOSI pad used for loopback).  The driver code itself is translated
function by function from the C++ sources.

Each testbench harness state `TB I S` carries, besides the driven input
signals and the model state, the virtual clock counter `simTime` and
ghost observation logs used only to state theorems:
  * `dumps`  – the timestamps passed to the trace sink (`tfp->dump`),
  * `evals`  – the input record seen by each `eval` call,
  * `ticks`  – one record per `tick()` call: the bus inputs driven during
               that tick plus the readiness/read-data outputs sampled
               after it,
  * `errs`   – the number of timeout messages printed.

The unbounded C++ wait loops are embedded with an explicit iteration
budget (`fuel`): a result of `none` means the loop did not terminate
within that many iterations, so a loop returning `none` for every fuel
value never terminates.
-/

namespace SpiSim

/-- One ghost log entry per `tick()` call: the inputs as driven at the
start of the tick, and the model's readiness / read-data outputs sampled
after the tick completes (the values the C++ wait loops inspect). -/
structure Ev (I : Type) where
  ins : I
  ready : Bool
  rdata : Nat

/-- Harness state of one testbench: driven inputs, model state, the
virtual clock (`sim_time`), and the ghost observation logs. -/
structure TB (I S : Type) where
  ins : I
  st : S
  simTime : Nat
  dumps : List Nat
  evals : List I
  ticks : List (Ev I)
  errs : Nat

/-- The simulated hardware model (external collaborator): `eval`
propagates driven inputs through the model, `ready` is the
readiness/acknowledge output (`pready` / `wb_ack_o`), `rdata` the read
data output (`prdata` / `wb_dat_o`) and `fb` the output pad that some
testbenches loop back into an input (`mosiPadO` / `mosi_pad_o`). -/
structure Model (I S : Type) where
  eval : S → I → S
  ready : S → Bool
  rdata : S → Nat
  fb : S → Nat

/-- Fuel-indexed embedding of the unbounded C++ wait loop
`do { tick(); } while (!ready);`.  `none` means the loop did not
terminate within `n` iterations. -/
def loopWait {α : Type} (tk : α → α) (rdy : α → Bool) : Nat → α → Option α
  | 0, _ => none
  | n + 1, a =>
    let a1 := tk a
    if rdy a1 then some a1 else loopWait tk rdy n a1

/-- Embedding of the bounded QSPI wait loop
`do { tick(); if (++cycles > MAX_CYCLES) break; } while (!ready);`
with iteration budget `n` (= `MAX_CYCLES`).  When the budget is
exhausted one final `tick` still happens (the tick whose `++cycles`
trips the limit) and the `Bool` result is `false` (timed out). -/
def loopWaitB {α : Type} (tk : α → α) (rdy : α → Bool) : Nat → α → α × Bool
  | 0, a => (tk a, false)
  | n + 1, a =>
    let a1 := tk a
    if rdy a1 then (a1, true) else loopWaitB tk rdy n a1

/-- `for (int i = 0; i < n; i++) tick();` -/
def tickN {α : Type} (tk : α → α) : Nat → α → α
  | 0, a => a
  | n + 1, a => tickN tk n (tk a)

/-- APB request signal fields driven by the testbench masters
(`paddr`, `pwdata`, `pstrb`, `pwrite`, `psel`, `penable`). -/
structure ApbBus where
  paddr : Nat
  pwdata : Nat
  pstrb : Nat
  pwrite : Nat
  psel : Nat
  penable : Nat

/-- Wishbone request signal fields driven by `sim_spi_top.cpp`
(`wb_adr_i`, `wb_dat_i`, `wb_sel_i`, `wb_we_i`, `wb_stb_i`, `wb_cyc_i`). -/
structure WbBus where
  wb_adr_i : Nat
  wb_dat_i : Nat
  wb_sel_i : Nat
  wb_we_i : Nat
  wb_stb_i : Nat
  wb_cyc_i : Nat

namespace ChiselSpi

/-- Input signal surface of the `VSPI` DUT in `sim_chisel_spi.cpp`:
`clock`, active-high `reset`, the APB request fields, and the
`misoPadI` pad that `tick()` loops back from `mosiPadO`. -/
structure Ins where
  clock : Nat
  reset : Nat
  misoPadI : Nat
  bus : ApbBus

/-- `tick()` of `sim_chisel_spi.cpp` (lines 50-62): rising edge with the
MOSI→MISO loopback applied, `eval`, `tfp->dump(sim_time++)`, then falling
edge with the loopback reapplied, `eval`, `dump` again. -/
def tick {S : Type} (m : Model Ins S) (tb : TB Ins S) : TB Ins S :=
  let i1 : Ins := { tb.ins with clock := 1, misoPadI := m.fb tb.st }
  let s1 := m.eval tb.st i1
  let i2 : Ins := { i1 with clock := 0, misoPadI := m.fb s1 }
  let s2 := m.eval s1 i2
  { ins := i2
    st := s2
    simTime := tb.simTime + 2
    dumps := tb.dumps ++ [tb.simTime, tb.simTime + 1]
    evals := tb.evals ++ [i1, i2]
    ticks := tb.ticks ++ [{ ins := tb.ins, ready := m.ready s2, rdata := m.rdata s2 }]
    errs := tb.errs }

/-- Tick log entry produced by one `tick()` call. -/
def evOf {S : Type} (m : Model Ins S) (tb : TB Ins S) : Ev Ins :=
  { ins := tb.ins, ready := m.ready (tick m tb).st, rdata := m.rdata (tick m tb).st }

/-- SETUP-phase signal assignments of `apb_write`:
`paddr=addr; pwdata=data; pstrb=0xF; pwrite=1; psel=1; penable=0`. -/
def writeSetup {S : Type} (tb : TB Ins S) (addr data : Nat) : TB Ins S :=
  { tb with ins := { tb.ins with bus := { paddr := addr, pwdata := data, pstrb := 0xF, pwrite := 1, psel := 1, penable := 0 } } }

/-- SETUP-phase signal assignments of `apb_read`:
`paddr=addr; pwrite=0; pstrb=0xF; psel=1; penable=0`. -/
def readSetup {S : Type} (tb : TB Ins S) (addr : Nat) : TB Ins S :=
  { tb with ins := { tb.ins with bus := { tb.ins.bus with paddr := addr, pwrite := 0, pstrb := 0xF, psel := 1, penable := 0 } } }

/-- ACCESS-phase entry: `penable = 1`. -/
def enAccess {S : Type} (tb : TB Ins S) : TB Ins S :=
  { tb with ins := { tb.ins with bus := { tb.ins.bus with penable := 1 } } }

/-- IDLE-phase teardown of `apb_write`: `psel=0; penable=0; pwrite=0`. -/
def idleW {S : Type} (tb : TB Ins S) : TB Ins S :=
  { tb with ins := { tb.ins with bus := { tb.ins.bus with psel := 0, penable := 0, pwrite := 0 } } }

/-- IDLE-phase teardown of `apb_read`: `psel=0; penable=0`. -/
def idleR {S : Type} (tb : TB Ins S) : TB Ins S :=
  { tb with ins := { tb.ins with bus := { tb.ins.bus with psel := 0, penable := 0 } } }

/-- `apb_write(addr, data)` of `sim_chisel_spi.cpp` (lines 83-102):
setup assignments, one setup edge, `penable=1`, then the unbounded
`do { tick(); } while (!pready);` wait loop (given an explicit iteration
budget `fuel`), then teardown and one idle edge. -/
def apb_write {S : Type} (m : Model Ins S) (fuel : Nat) (tb : TB Ins S)
    (addr data : Nat) : Option (TB Ins S) :=
  match loopWait (tick m) (fun x => m.ready x.st) fuel
      (enAccess (tick m (writeSetup tb addr data))) with
  | none => none
  | some tb3 => some (tick m (idleW tb3))

/-- `apb_read(addr)` of `sim_chisel_spi.cpp` (lines 105-126); returns
the data word sampled from `prdata` right after the wait loop exits,
before the idle edge. -/
def apb_read {S : Type} (m : Model Ins S) (fuel : Nat) (tb : TB Ins S)
    (addr : Nat) : Option (TB Ins S × Nat) :=
  match loopWait (tick m) (fun x => m.ready x.st) fuel
      (enAccess (tick m (readSetup tb addr))) with
  | none => none
  | some tb3 => some (tick m (idleR tb3), m.rdata tb3.st)

/-- All-zero input record (post-construction signal state). -/
def Ins0 : Ins := { clock := 0, reset := 0, misoPadI := 0, bus := { paddr := 0, pwdata := 0, pstrb := 0, pwrite := 0, psel := 0, penable := 0 } }

/-- Fresh harness state. -/
def TB0 : TB Ins Unit :=
  { ins := Ins0, st := (), simTime := 0, dumps := [], evals := [], ticks := [], errs := 0 }

/-- Concrete zero-wait-state model: readiness always true, read data 7. -/
def MRdy : Model Ins Unit :=
  { eval := fun s _ => s, ready := fun _ => true, rdata := fun _ => 7, fb := fun _ => 0 }

end ChiselSpi

namespace BitrevSpi

/-- Input signal surface of the `VSPIBitRevTop` DUT in
`sim_bitrev_spi.cpp`: `clock`, active-high `reset` and the APB request
fields (this testbench has no MISO loopback pad). -/
structure Ins where
  clock : Nat
  reset : Nat
  bus : ApbBus

/-- `tick()` of `sim_bitrev_spi.cpp` (lines 29-36): rising edge, `eval`,
`dump`, falling edge, `eval`, `dump`; no loopback wiring. -/
def tick {S : Type} (m : Model Ins S) (tb : TB Ins S) : TB Ins S :=
  let i1 : Ins := { tb.ins with clock := 1 }
  let s1 := m.eval tb.st i1
  let i2 : Ins := { i1 with clock := 0 }
  let s2 := m.eval s1 i2
  { ins := i2
    st := s2
    simTime := tb.simTime + 2
    dumps := tb.dumps ++ [tb.simTime, tb.simTime + 1]
    evals := tb.evals ++ [i1, i2]
    ticks := tb.ticks ++ [{ ins := tb.ins, ready := m.ready s2, rdata := m.rdata s2 }]
    errs := tb.errs }

/-- Tick log entry produced by one `tick()` call. -/
def evOf {S : Type} (m : Model Ins S) (tb : TB Ins S) : Ev Ins :=
  { ins := tb.ins, ready := m.ready (tick m tb).st, rdata := m.rdata (tick m tb).st }

/-- Reset-entry assignments of `do_reset` (lines 39-45): `reset = 1`
and every APB request field cleared to zero. -/
def rstOn {S : Type} (tb : TB Ins S) : TB Ins S :=
  { tb with ins := { tb.ins with reset := 1, bus := { paddr := 0, pwdata := 0, pstrb := 0, pwrite := 0, psel := 0, penable := 0 } } }

/-- Reset release: `reset = 0`. -/
def rstOff {S : Type} (tb : TB Ins S) : TB Ins S :=
  { tb with ins := { tb.ins with reset := 0 } }

/-- `do_reset()` of `sim_bitrev_spi.cpp` (lines 38-49): assert the
active-high reset, clear all APB request fields, run 10 ticks, release
reset, run one more tick. -/
def do_reset {S : Type} (m : Model Ins S) (tb : TB Ins S) : TB Ins S :=
  tick m (rstOff (tickN (tick m) 10 (rstOn tb)))

/-- SETUP-phase signal assignments of `apb_write` (lines 52-59). -/
def writeSetup {S : Type} (tb : TB Ins S) (addr data : Nat) : TB Ins S :=
  { tb with ins := { tb.ins with bus := { paddr := addr, pwdata := data, pstrb := 0xF, pwrite := 1, psel := 1, penable := 0 } } }

/-- ACCESS-phase entry: `penable = 1`. -/
def enAccess {S : Type} (tb : TB Ins S) : TB Ins S :=
  { tb with ins := { tb.ins with bus := { tb.ins.bus with penable := 1 } } }

/-- IDLE-phase teardown of `apb_write`: `psel=0; penable=0; pwrite=0`. -/
def idleW {S : Type} (tb : TB Ins S) : TB Ins S :=
  { tb with ins := { tb.ins with bus := { tb.ins.bus with psel := 0, penable := 0, pwrite := 0 } } }

/-- `apb_write(addr, data)` of `sim_bitrev_spi.cpp` (lines 51-68): setup
edge, then the unbounded `do { tick(); } while (!pready);` wait loop
(fuel-indexed), then teardown and one idle edge.  The loop has no
iteration ceiling in the source: `none` for every fuel value means the
call never returns. -/
def apb_write {S : Type} (m : Model Ins S) (fuel : Nat) (tb : TB Ins S)
    (addr data : Nat) : Option (TB Ins S) :=
  match loopWait (tick m) (fun x => m.ready x.st) fuel
      (enAccess (tick m (writeSetup tb addr data))) with
  | none => none
  | some tb3 => some (tick m (idleW tb3))

/-- Model whose `pready` output is never asserted (a malfunctioning or
miswired DUT). -/
def MNever : Model Ins Unit :=
  { eval := fun s _ => s, ready := fun _ => false, rdata := fun _ => 0, fb := fun _ => 0 }

end BitrevSpi

namespace SpiTop

/-- Input signal surface of the `Vspi_top` DUT in `sim_spi_top.cpp`:
`wb_clk_i`, active-high `wb_rst_i`, the Wishbone request fields, and the
`miso_pad_i` pad that `tick()` loops back from `mosi_pad_o`. -/
structure Ins where
  wb_clk_i : Nat
  wb_rst_i : Nat
  miso_pad_i : Nat
  bus : WbBus

/-- `tick()` of `sim_spi_top.cpp` (lines 67-79): FALLING edge first
(`wb_clk_i = 0`) with the MOSI→MISO loopback applied, `eval`,
`tfp->dump(sim_time++)`, then rising edge (`wb_clk_i = 1`) with the
loopback reapplied, `eval`, `dump` again. -/
def tick {S : Type} (m : Model Ins S) (tb : TB Ins S) : TB Ins S :=
  let i1 : Ins := { tb.ins with wb_clk_i := 0, miso_pad_i := m.fb tb.st }
  let s1 := m.eval tb.st i1
  let i2 : Ins := { i1 with wb_clk_i := 1, miso_pad_i := m.fb s1 }
  let s2 := m.eval s1 i2
  { ins := i2
    st := s2
    simTime := tb.simTime + 2
    dumps := tb.dumps ++ [tb.simTime, tb.simTime + 1]
    evals := tb.evals ++ [i1, i2]
    ticks := tb.ticks ++ [{ ins := tb.ins, ready := m.ready s2, rdata := m.rdata s2 }]
    errs := tb.errs }

/-- Tick log entry produced by one `tick()` call. -/
def evOf {S : Type} (m : Model Ins S) (tb : TB Ins S) : Ev Ins :=
  { ins := tb.ins, ready := m.ready (tick m tb).st, rdata := m.rdata (tick m tb).st }

/-- Reset-entry assignments of `reset` (lines 84-91): `wb_rst_i = 1`,
every Wishbone request field and `miso_pad_i` cleared to zero. -/
def rstOn {S : Type} (tb : TB Ins S) : TB Ins S :=
  { tb with ins := { tb.ins with wb_rst_i := 1, miso_pad_i := 0, bus := { wb_adr_i := 0, wb_dat_i := 0, wb_sel_i := 0, wb_we_i := 0, wb_stb_i := 0, wb_cyc_i := 0 } } }

/-- Reset release: `wb_rst_i = 0`. -/
def rstOff {S : Type} (tb : TB Ins S) : TB Ins S :=
  { tb with ins := { tb.ins with wb_rst_i := 0 } }

/-- `reset()` of `sim_spi_top.cpp` (lines 83-97): assert the active-high
`wb_rst_i`, clear all Wishbone request fields and `miso_pad_i`, run 10
ticks, release reset, run one more tick. -/
def reset {S : Type} (m : Model Ins S) (tb : TB Ins S) : TB Ins S :=
  tick m (rstOff (tickN (tick m) 10 (rstOn tb)))

/-- Request assignments of `wb_read` (lines 119-124): address, full byte
select, read direction, strobe and cycle asserted together (no separate
setup edge in the Wishbone protocol). -/
def readStart {S : Type} (tb : TB Ins S) (addr : Nat) : TB Ins S :=
  { tb with ins := { tb.ins with bus := { tb.ins.bus with wb_adr_i := addr, wb_sel_i := 0xF, wb_we_i := 0, wb_stb_i := 1, wb_cyc_i := 1 } } }

/-- Teardown of `wb_read` (lines 130-131): `wb_stb_i=0; wb_cyc_i=0`. -/
def tearR {S : Type} (tb : TB Ins S) : TB Ins S :=
  { tb with ins := { tb.ins with bus := { tb.ins.bus with wb_stb_i := 0, wb_cyc_i := 0 } } }

/-- `wb_read(addr)` of `sim_spi_top.cpp` (lines 119-135): request
assignments, then the unbounded `do { tick(); } while (!wb_ack_o);` wait
loop (fuel-indexed), sample `wb_dat_o`, teardown and one settling edge.
The loop has no iteration ceiling in the source: `none` for every fuel
value means the call never returns. -/
def wb_read {S : Type} (m : Model Ins S) (fuel : Nat) (tb : TB Ins S)
    (addr : Nat) : Option (TB Ins S × Nat) :=
  match loopWait (tick m) (fun x => m.ready x.st) fuel (readStart tb addr) with
  | none => none
  | some tb2 => some (tick m (tearR tb2), m.rdata tb2.st)

/-- `ADDR_CTRL = 4 << 2` (byte address of the control register). -/
def ADDR_CTRL : Nat := 0x10

/-- `CTRL_GO = 1 << 8` (the GO/busy bit of the control register). -/
def CTRL_GO : Nat := 0x100

/-- `wait_xfer_done(timeout)` of `sim_spi_top.cpp` (lines 139-146):
`while (timeout-- > 0)` polls the control register through `wb_read` and
returns `true` as soon as the GO bit reads clear; when the iteration
budget is exhausted it prints a timeout message and returns `false`.
Besides the C++ `bool` result, the embedding also returns the list of
control-register values read (ghost output used only by theorems);
`none` means an inner `wb_read` wait loop itself never terminated. -/
def wait_xfer_done {S : Type} (m : Model Ins S) (fuel : Nat) :
    Nat → TB Ins S → Option (TB Ins S × Bool × List Nat)
  | 0, tb => some ({ tb with errs := tb.errs + 1 }, false, [])
  | t + 1, tb =>
    match wb_read m fuel tb ADDR_CTRL with
    | none => none
    | some (tb1, ctrl) =>
      if ctrl &&& CTRL_GO = 0 then some (tb1, true, [ctrl])
      else
        match wait_xfer_done m fuel t tb1 with
        | none => none
        | some (tb2, ok, vs) => some (tb2, ok, ctrl :: vs)

/-- `wait_xfer_done` with its default argument `timeout = 100000`. -/
def wait_xfer_done_default {S : Type} (m : Model Ins S) (fuel : Nat)
    (tb : TB Ins S) : Option (TB Ins S × Bool × List Nat) :=
  wait_xfer_done m fuel 100000 tb

/-- Model whose `wb_ack_o` output is never asserted (a malfunctioning or
miswired DUT). -/
def MNever : Model Ins Unit :=
  { eval := fun s _ => s, ready := fun _ => false, rdata := fun _ => 0, fb := fun _ => 0 }

/-- Model that acknowledges every cycle and always reports the GO bit
set in the control register (a transfer that never finishes). -/
def MGo : Model Ins Unit :=
  { eval := fun s _ => s, ready := fun _ => true, rdata := fun _ => 0x100, fb := fun _ => 0 }

/-- All-zero input record. -/
def Ins0 : Ins := { wb_clk_i := 0, wb_rst_i := 0, miso_pad_i := 0, bus := { wb_adr_i := 0, wb_dat_i := 0, wb_sel_i := 0, wb_we_i := 0, wb_stb_i := 0, wb_cyc_i := 0 } }

/-- Fresh harness state. -/
def TB0 : TB Ins Unit :=
  { ins := Ins0, st := (), simTime := 0, dumps := [], evals := [], ticks := [], errs := 0 }

end SpiTop

namespace QspiPsram

/-- `MAX_CYCLES = 500000` (`sim_qspi_psram.cpp` line 40). -/
def MAX_CYCLES : Nat := 500000

/-- The PSRAM backing store `static uint8_t psram_mem[1 << 20]`,
embedded as a function from byte index to stored byte. -/
def PsramMem : Type := Nat → Nat

/-- `psram_read(addr, data)` of `sim_qspi_psram.cpp` (lines 22-25):
`uint32_t a = (uint32_t)addr & 0xFFFFF; *data = psram_mem[a];`
(address cast to 32 bits, then masked to the 2^20-byte capacity). -/
def psram_read (mem : PsramMem) (addr : Nat) : Nat :=
  mem ((addr % 2 ^ 32) &&& 0xFFFFF)

/-- `psram_write(addr, data)` of `sim_qspi_psram.cpp` (lines 27-31):
stores the low byte of `data` at the masked address. -/
def psram_write (mem : PsramMem) (addr data : Nat) : PsramMem :=
  fun x => if x = (addr % 2 ^ 32) &&& 0xFFFFF then data % 256 else mem x

/-- Input signal surface of the `VQSPIPSRAMTop` DUT in
`sim_qspi_psram.cpp`: `clock`, active-high `reset` and the APB request
fields (no loopback pad; the PSRAM side is reached through DPI-C). -/
structure Ins where
  clock : Nat
  reset : Nat
  bus : ApbBus

/-- `tick()` of `sim_qspi_psram.cpp` (lines 43-50): rising edge, `eval`,
`dump`, falling edge, `eval`, `dump`; no loopback wiring. -/
def tick {S : Type} (m : Model Ins S) (tb : TB Ins S) : TB Ins S :=
  let i1 : Ins := { tb.ins with clock := 1 }
  let s1 := m.eval tb.st i1
  let i2 : Ins := { i1 with clock := 0 }
  let s2 := m.eval s1 i2
  { ins := i2
    st := s2
    simTime := tb.simTime + 2
    dumps := tb.dumps ++ [tb.simTime, tb.simTime + 1]
    evals := tb.evals ++ [i1, i2]
    ticks := tb.ticks ++ [{ ins := tb.ins, ready := m.ready s2, rdata := m.rdata s2 }]
    errs := tb.errs }

/-- Tick log entry produced by one `tick()` call. -/
def evOf {S : Type} (m : Model Ins S) (tb : TB Ins S) : Ev Ins :=
  { ins := tb.ins, ready := m.ready (tick m tb).st, rdata := m.rdata (tick m tb).st }

/-- SETUP-phase signal assignments of `apb_write` (lines 85-91), with
the byte-strobe argument (default `0xF` at call sites). -/
def writeSetup {S : Type} (tb : TB Ins S) (addr data strb : Nat) : TB Ins S :=
  { tb with ins := { tb.ins with bus := { paddr := addr, pwdata := data, pstrb := strb, pwrite := 1, psel := 1, penable := 0 } } }

/-- SETUP-phase signal assignments of `apb_read` (lines 114-119). -/
def readSetup {S : Type} (tb : TB Ins S) (addr : Nat) : TB Ins S :=
  { tb with ins := { tb.ins with bus := { tb.ins.bus with paddr := addr, pwrite := 0, pstrb := 0xF, psel := 1, penable := 0 } } }

/-- ACCESS-phase entry: `penable = 1`. -/
def enAccess {S : Type} (tb : TB Ins S) : TB Ins S :=
  { tb with ins := { tb.ins with bus := { tb.ins.bus with penable := 1 } } }

/-- IDLE-phase teardown of `apb_write`: `psel=0; penable=0; pwrite=0`. -/
def idleW {S : Type} (tb : TB Ins S) : TB Ins S :=
  { tb with ins := { tb.ins with bus := { tb.ins.bus with psel := 0, penable := 0, pwrite := 0 } } }

/-- IDLE-phase teardown of `apb_read`: `psel=0; penable=0`. -/
def idleR {S : Type} (tb : TB Ins S) : TB Ins S :=
  { tb with ins := { tb.ins with bus := { tb.ins.bus with psel := 0, penable := 0 } } }

/-- `apb_write(addr, data, strb)` of `sim_qspi_psram.cpp` (lines 84-110):
setup edge, `penable=1`, then the `MAX_CYCLES`-bounded wait loop (a
timeout prints a message and breaks out), then — whether or not the loop
timed out — one extra grace edge with `penable` still asserted, then
teardown and one idle edge.  The `Bool` result records completion
(`true`) versus timeout (`false`) — the Transaction Outcome status. -/
def apb_write {S : Type} (m : Model Ins S) (tb : TB Ins S)
    (addr data strb : Nat) : TB Ins S × Bool :=
  let r := loopWaitB (tick m) (fun x => m.ready x.st) MAX_CYCLES
      (enAccess (tick m (writeSetup tb addr data strb)))
  let tb3 := if r.2 then r.1 else { r.1 with errs := r.1.errs + 1 }
  (tick m (idleW (tick m tb3)), r.2)

/-- `apb_read(addr)` of `sim_qspi_psram.cpp` (lines 113-139): setup
edge, `penable=1`, then the `MAX_CYCLES`-bounded wait loop.  On
readiness: sample `prdata`, one extra grace edge with `penable` still
asserted, teardown, one idle edge, return the sampled word.  On timeout:
print a message and return the sentinel `0xDEADBEEF` immediately.  The
`Bool` result records completion versus timeout. -/
def apb_read {S : Type} (m : Model Ins S) (tb : TB Ins S)
    (addr : Nat) : TB Ins S × Nat × Bool :=
  let r := loopWaitB (tick m) (fun x => m.ready x.st) MAX_CYCLES
      (enAccess (tick m (readSetup tb addr)))
  if r.2 then
    (tick m (idleR (tick m r.1)), m.rdata r.1.st, true)
  else
    ({ r.1 with errs := r.1.errs + 1 }, 0xDEADBEEF, false)

/-- The data words written and read back by Test 4 of `main`
(`sim_qspi_psram.cpp` lines 220-222). -/
def test4_vals : List Nat := [0xDEADBEEF, 0xCAFEBABE, 0x12345678, 0xA5A5A5A5]

/-- Model whose `pready` output is never asserted. -/
def MNever : Model Ins Unit :=
  { eval := fun s _ => s, ready := fun _ => false, rdata := fun _ => 0, fb := fun _ => 0 }

/-- Model that is ready every cycle and returns the stored word
`0xDEADBEEF` — the behaviour of the DUT after Test 4 stored `0xDEADBEEF`
at address `0x400`. -/
def MDead : Model Ins Unit :=
  { eval := fun s _ => s, ready := fun _ => true, rdata := fun _ => 0xDEADBEEF, fb := fun _ => 0 }

/-- All-zero input record. -/
def Ins0 : Ins := { clock := 0, reset := 0, bus := { paddr := 0, pwdata := 0, pstrb := 0, pwrite := 0, psel := 0, penable := 0 } }

/-- Fresh harness state. -/
def TB0 : TB Ins Unit :=
  { ins := Ins0, st := (), simTime := 0, dumps := [], evals := [], ticks := [], errs := 0 }

end QspiPsram

namespace Oracle

/-- The process-wide verification counters `test_pass` / `test_fail`
plus a ghost log of the human-readable records `check` prints
(pass flag, name, masked expected, masked actual). -/
structure CheckState where
  test_pass : Nat
  test_fail : Nat
  records : List (Bool × String × Nat × Nat)

/-- `check(name, expected, actual, mask)` as implemented identically in
`sim_chisel_spi.cpp` (lines 129-140) and `sim_bitrev_spi.cpp`
(lines 89-100): mask both values, compare, print a PASS or FAIL record
with the masked values, and bump exactly one counter. -/
def check (name : String) (expected actual mask : Nat) (cs : CheckState) : CheckState :=
  let actual2 := actual &&& mask
  let expected2 := expected &&& mask
  if actual2 = expected2 then
    { cs with test_pass := cs.test_pass + 1, records := cs.records ++ [(true, name, expected2, actual2)] }
  else
    { cs with test_fail := cs.test_fail + 1, records := cs.records ++ [(false, name, expected2, actual2)] }

/-- `return test_fail > 0 ? 1 : 0;` — the exit status computed at the
end of `main` in all four testbenches (e.g. `sim_chisel_spi.cpp` line
240, `sim_qspi_psram.cpp` line 275). -/
def main_exit (cs : CheckState) : Nat :=
  if cs.test_fail > 0 then 1 else 0

end Oracle

/-- Concrete completed `apb_write` run of the Chisel testbench against
the zero-wait-state model (used as a witness run). -/
def W2w : TB ChiselSpi.Ins Unit :=
  (ChiselSpi.apb_write ChiselSpi.MRdy 1 ChiselSpi.TB0 4 5).getD ChiselSpi.TB0

/-- Concrete completed `apb_read` run of the Chisel testbench against
the zero-wait-state model (used as a witness run). -/
def W2r : TB ChiselSpi.Ins Unit × Nat :=
  (ChiselSpi.apb_read ChiselSpi.MRdy 1 ChiselSpi.TB0 4).getD (ChiselSpi.TB0, 0)

/-- Concrete completed QSPI `apb_write` run against the always-ready
model (used as a witness run). -/
def W3w : TB QspiPsram.Ins Unit × Bool :=
  QspiPsram.apb_write QspiPsram.MDead QspiPsram.TB0 4 5 0xF

/-- Concrete completed QSPI `apb_read` run against the always-ready
model (used as a witness run). -/
def W3r : TB QspiPsram.Ins Unit × Nat × Bool :=
  QspiPsram.apb_read QspiPsram.MDead QspiPsram.TB0 4

/-- Concrete `wait_xfer_done` run with iteration budget 2 against a
model whose GO bit never clears (used as a witness run). -/
def W8 : TB SpiTop.Ins Unit × Bool × List Nat :=
  (SpiTop.wait_xfer_done SpiTop.MGo 2 2 SpiTop.TB0).getD (SpiTop.TB0, true, [])

section LoopLemmas

variable {α β γ : Type}
variable (tk : α → α) (rdy : α → Bool)
variable (ticksOf : α → List β) (evOf : α → β) (busOf : α → γ)
variable (insBusOf : β → γ) (errsOf : α → Nat)
variable (readyOf : β → Bool) (rdOf : β → Nat) (rdata : α → Nat)

/-- Shape of a successful run of the unbounded wait loop: it appends to
the tick log a block of not-ready ticks followed by a single ready tick,
all driven with the bus inputs it was entered with; the loop exits in the
same tick readiness first reads true, and the read-data output of that
final tick is the model's read data in the exit state. -/
theorem loopWait_spec
    (hticks : ∀ a, ticksOf (tk a) = ticksOf a ++ [evOf a])
    (hrdy : ∀ a, readyOf (evOf a) = rdy (tk a))
    (hrd : ∀ a, rdOf (evOf a) = rdata (tk a))
    (hbusev : ∀ a, insBusOf (evOf a) = busOf a)
    (hbus : ∀ a, busOf (tk a) = busOf a)
    (herrs : ∀ a, errsOf (tk a) = errsOf a) :
    ∀ (n : Nat) (a a2 : α), loopWait tk rdy n a = some a2 →
      ∃ l e, ticksOf a2 = ticksOf a ++ l ++ [e] ∧
        (∀ x ∈ l, insBusOf x = busOf a ∧ readyOf x = false) ∧
        insBusOf e = busOf a ∧ readyOf e = true ∧ rdOf e = rdata a2 ∧
        rdy a2 = true ∧ busOf a2 = busOf a ∧ errsOf a2 = errsOf a := by
  intro n
  induction n with
  | zero => intro a a2 h; simp [loopWait] at h
  | succ n ih =>
    intro a a2 h
    simp only [loopWait] at h
    by_cases hr : rdy (tk a)
    · simp only [hr, if_pos] at h
      obtain rfl := Option.some.inj h
      refine ⟨[], evOf a, ?_, ?_, hbusev a, ?_, hrd a, hr, hbus a, herrs a⟩
      · simpa using hticks a
      · intro x hx; simp at hx
      · rw [hrdy]; exact hr
    · simp only [hr, if_neg, Bool.false_eq_true, not_false_eq_true] at h
      obtain ⟨l, e, h1, h2, h3, h4, h5, h6, h7, h8⟩ := ih (tk a) a2 h
      refine ⟨evOf a :: l, e, ?_, ?_, ?_, h4, h5, h6, ?_, ?_⟩
      · rw [h1, hticks a]; simp
      · intro x hx
        rcases List.mem_cons.mp hx with hx | hx
        · subst hx
          refine ⟨hbusev a, ?_⟩
          rw [hrdy]; simpa using hr
        · obtain ⟨hb, hrf⟩ := h2 x hx
          exact ⟨hb.trans (hbus a), hrf⟩
      · exact h3.trans (hbus a)
      · exact h7.trans (hbus a)
      · exact h8.trans (herrs a)

/-- If readiness never reads true, the unbounded wait loop fails to
terminate within any finite iteration budget. -/
theorem loopWait_none (hnever : ∀ a, rdy a = false) :
    ∀ (n : Nat) (a : α), loopWait tk rdy n a = none := by
  intro n
  induction n with
  | zero => intro a; rfl
  | succ n ih =>
    intro a
    simp only [loopWait, hnever (tk a), Bool.false_eq_true, if_false]
    exact ih (tk a)

/-- Shape of a run of the bounded wait loop that exits on readiness
(result flag `true`): identical to `loopWait_spec`. -/
theorem loopWaitB_spec
    (hticks : ∀ a, ticksOf (tk a) = ticksOf a ++ [evOf a])
    (hrdy : ∀ a, readyOf (evOf a) = rdy (tk a))
    (hrd : ∀ a, rdOf (evOf a) = rdata (tk a))
    (hbusev : ∀ a, insBusOf (evOf a) = busOf a)
    (hbus : ∀ a, busOf (tk a) = busOf a)
    (herrs : ∀ a, errsOf (tk a) = errsOf a) :
    ∀ (n : Nat) (a a2 : α), loopWaitB tk rdy n a = (a2, true) →
      ∃ l e, ticksOf a2 = ticksOf a ++ l ++ [e] ∧
        (∀ x ∈ l, insBusOf x = busOf a ∧ readyOf x = false) ∧
        insBusOf e = busOf a ∧ readyOf e = true ∧ rdOf e = rdata a2 ∧
        rdy a2 = true ∧ busOf a2 = busOf a ∧ errsOf a2 = errsOf a := by
  intro n
  induction n with
  | zero =>
    intro a a2 h
    simp only [loopWaitB, Prod.mk.injEq] at h
    exact absurd h.2 (by simp)
  | succ n ih =>
    intro a a2 h
    simp only [loopWaitB] at h
    by_cases hr : rdy (tk a)
    · simp only [hr, if_pos] at h
      have ha : a2 = tk a := ((Prod.mk.injEq _ _ _ _).mp h).1.symm
      subst ha
      refine ⟨[], evOf a, ?_, ?_, hbusev a, ?_, hrd a, hr, hbus a, herrs a⟩
      · simpa using hticks a
      · intro x hx; simp at hx
      · rw [hrdy]; exact hr
    · simp only [hr, if_neg, Bool.false_eq_true, not_false_eq_true] at h
      obtain ⟨l, e, h1, h2, h3, h4, h5, h6, h7, h8⟩ := ih (tk a) a2 h
      refine ⟨evOf a :: l, e, ?_, ?_, ?_, h4, h5, h6, ?_, ?_⟩
      · rw [h1, hticks a]; simp
      · intro x hx
        rcases List.mem_cons.mp hx with hx | hx
        · subst hx
          refine ⟨hbusev a, ?_⟩
          rw [hrdy]; simpa using hr
        · obtain ⟨hb, hrf⟩ := h2 x hx
          exact ⟨hb.trans (hbus a), hrf⟩
      · exact h3.trans (hbus a)
      · exact h7.trans (hbus a)
      · exact h8.trans (herrs a)

/-- If readiness never reads true, the bounded wait loop always reports
a timeout, and the loop body itself logs nothing. -/
theorem loopWaitB_never (hnever : ∀ a, rdy a = false)
    (herrs : ∀ a, errsOf (tk a) = errsOf a) :
    ∀ (n : Nat) (a : α), (loopWaitB tk rdy n a).2 = false ∧
      errsOf (loopWaitB tk rdy n a).1 = errsOf a := by
  intro n
  induction n with
  | zero => intro a; exact ⟨rfl, herrs a⟩
  | succ n ih =>
    intro a
    simp only [loopWaitB, hnever (tk a), Bool.false_eq_true, if_false]
    exact ⟨(ih (tk a)).1, (ih (tk a)).2.trans (herrs a)⟩

/-- The unbounded wait loop preserves the timeout-message count: the
loop body is just `tick()`, which prints nothing. -/
theorem loopWait_errs (herrs : ∀ a, errsOf (tk a) = errsOf a) :
    ∀ (n : Nat) (a a2 : α), loopWait tk rdy n a = some a2 →
      errsOf a2 = errsOf a := by
  intro n
  induction n with
  | zero => intro a a2 h; simp [loopWait] at h
  | succ n ih =>
    intro a a2 h
    simp only [loopWait] at h
    by_cases hr : rdy (tk a)
    · simp only [hr, if_pos] at h
      obtain rfl := Option.some.inj h
      exact herrs a
    · simp only [hr, if_neg, Bool.false_eq_true, not_false_eq_true] at h
      exact (ih (tk a) a2 h).trans (herrs a)

/-- Repeating `tick` `n` times appends `n` entries to the tick log; a
property of the driven inputs that each tick preserves holds for every
appended entry and at the end. -/
theorem tickN_spec (P : α → Prop) (Q : β → Prop)
    (hticks : ∀ a, ticksOf (tk a) = ticksOf a ++ [evOf a])
    (hev : ∀ a, P a → Q (evOf a))
    (hpres : ∀ a, P a → P (tk a)) :
    ∀ (n : Nat) (a : α), P a →
      ∃ l, ticksOf (tickN tk n a) = ticksOf a ++ l ∧ l.length = n ∧
        (∀ x ∈ l, Q x) ∧ P (tickN tk n a) := by
  intro n
  induction n with
  | zero =>
    intro a hP
    exact ⟨[], by simp [tickN], rfl, by intro x hx; simp at hx, hP⟩
  | succ n ih =>
    intro a hP
    obtain ⟨l, h1, h2, h3, h4⟩ := ih (tk a) (hpres a hP)
    refine ⟨evOf a :: l, ?_, by simp [h2], ?_, h4⟩
    · show ticksOf (tickN tk n (tk a)) = _
      rw [h1, hticks a]; simp
    · intro x hx
      rcases List.mem_cons.mp hx with hx | hx
      · subst hx; exact hev a hP
      · exact h3 x hx

end LoopLemmas

/-- Instantiation of `loopWait_spec` for the `sim_chisel_spi.cpp` wait
loop. -/
theorem chiselWaitSpec {S : Type} (m : Model ChiselSpi.Ins S) (fuel : Nat)
    (a a2 : TB ChiselSpi.Ins S)
    (h : loopWait (ChiselSpi.tick m) (fun x => m.ready x.st) fuel a = some a2) :
    ∃ l e, a2.ticks = a.ticks ++ l ++ [e] ∧
      (∀ x ∈ l, x.ins.bus = a.ins.bus ∧ x.ready = false) ∧
      e.ins.bus = a.ins.bus ∧ e.ready = true ∧ e.rdata = m.rdata a2.st ∧
      m.ready a2.st = true ∧ a2.ins.bus = a.ins.bus ∧ a2.errs = a.errs :=
  loopWait_spec (ChiselSpi.tick m) (fun x => m.ready x.st) TB.ticks
    (ChiselSpi.evOf m) (fun x => x.ins.bus) (fun e => e.ins.bus) TB.errs
    Ev.ready Ev.rdata (fun x => m.rdata x.st)
    (fun _ => rfl) (fun _ => rfl) (fun _ => rfl) (fun _ => rfl) (fun _ => rfl)
    (fun _ => rfl) fuel a a2 h

/-- Instantiation of `loopWaitB_spec` for the `sim_qspi_psram.cpp` wait
loop exiting on readiness. -/
theorem qspiWaitSpec {S : Type} (m : Model QspiPsram.Ins S) (n : Nat)
    (a a2 : TB QspiPsram.Ins S)
    (h : loopWaitB (QspiPsram.tick m) (fun x => m.ready x.st) n a = (a2, true)) :
    ∃ l e, a2.ticks = a.ticks ++ l ++ [e] ∧
      (∀ x ∈ l, x.ins.bus = a.ins.bus ∧ x.ready = false) ∧
      e.ins.bus = a.ins.bus ∧ e.ready = true ∧ e.rdata = m.rdata a2.st ∧
      m.ready a2.st = true ∧ a2.ins.bus = a.ins.bus ∧ a2.errs = a.errs :=
  loopWaitB_spec (QspiPsram.tick m) (fun x => m.ready x.st) TB.ticks
    (QspiPsram.evOf m) (fun x => x.ins.bus) (fun e => e.ins.bus) TB.errs
    Ev.ready Ev.rdata (fun x => m.rdata x.st)
    (fun _ => rfl) (fun _ => rfl) (fun _ => rfl) (fun _ => rfl) (fun _ => rfl)
    (fun _ => rfl) n a a2 h

/-- Claim C2: every handshake-bus (APB) transaction of
`sim_chisel_spi.cpp` follows the three-phase shape — a setup edge with
`psel=1`, `penable=0`, then an access phase with `penable=1` whose edges
all see readiness false except the last, with read data sampled from the
model in the same edge readiness reads true; afterwards `psel`,
`penable` (and for `apb_write` the `pwrite` direction line) are
de-asserted and one further edge is advanced, so the bus request lines
read de-asserted before the next transaction's setup phase begins. -/
theorem claim_C2_handshake_three_phase {S T : Type}
    (m : Model ChiselSpi.Ins S) (mr : Model ChiselSpi.Ins T)
    (fuel fuelr addr data addr2 v : Nat)
    (tb tbw : TB ChiselSpi.Ins S) (tbr tbr2 : TB ChiselSpi.Ins T)
    (hw : ChiselSpi.apb_write m fuel tb addr data = some tbw)
    (hr : ChiselSpi.apb_read mr fuelr tbr addr2 = some (tbr2, v)) :
    (∃ eS l eR eI,
      tbw.ticks = tb.ticks ++ [eS] ++ l ++ [eR, eI] ∧
      eS.ins.bus = ⟨addr, data, 0xF, 1, 1, 0⟩ ∧
      (∀ x ∈ l, x.ins.bus = ⟨addr, data, 0xF, 1, 1, 1⟩ ∧ x.ready = false) ∧
      eR.ins.bus = ⟨addr, data, 0xF, 1, 1, 1⟩ ∧ eR.ready = true ∧
      eI.ins.bus = ⟨addr, data, 0xF, 0, 0, 0⟩ ∧
      tbw.ins.bus.psel = 0 ∧ tbw.ins.bus.penable = 0 ∧ tbw.ins.bus.pwrite = 0) ∧
    (∃ eS l eR eI,
      tbr2.ticks = tbr.ticks ++ [eS] ++ l ++ [eR, eI] ∧
      eS.ins.bus = ⟨addr2, tbr.ins.bus.pwdata, 0xF, 0, 1, 0⟩ ∧
      (∀ x ∈ l, x.ins.bus = ⟨addr2, tbr.ins.bus.pwdata, 0xF, 0, 1, 1⟩ ∧ x.ready = false) ∧
      eR.ins.bus = ⟨addr2, tbr.ins.bus.pwdata, 0xF, 0, 1, 1⟩ ∧ eR.ready = true ∧
      v = eR.rdata ∧
      eI.ins.bus = ⟨addr2, tbr.ins.bus.pwdata, 0xF, 0, 0, 0⟩ ∧
      tbr2.ins.bus.psel = 0 ∧ tbr2.ins.bus.penable = 0 ∧ tbr2.ins.bus.pwrite = 0) := by
  constructor
  · unfold ChiselSpi.apb_write at hw
    rcases hL : loopWait (ChiselSpi.tick m) (fun x => m.ready x.st) fuel
        (ChiselSpi.enAccess (ChiselSpi.tick m (ChiselSpi.writeSetup tb addr data))) with _ | tb3
    · rw [hL] at hw; exact absurd hw (by simp)
    · rw [hL] at hw
      obtain rfl := Option.some.inj hw
      obtain ⟨l, e, h1, h2, h3, h4, h5, h6, h7, h8⟩ := chiselWaitSpec m fuel _ _ hL
      refine ⟨ChiselSpi.evOf m (ChiselSpi.writeSetup tb addr data), l, e,
              ChiselSpi.evOf m (ChiselSpi.idleW tb3), ?_, rfl, ?_, ?_, h4, ?_, rfl, rfl, rfl⟩
      · have hTi : (ChiselSpi.tick m (ChiselSpi.idleW tb3)).ticks =
            tb3.ticks ++ [ChiselSpi.evOf m (ChiselSpi.idleW tb3)] := rfl
        have hAi : (ChiselSpi.enAccess (ChiselSpi.tick m
            (ChiselSpi.writeSetup tb addr data))).ticks =
            tb.ticks ++ [ChiselSpi.evOf m (ChiselSpi.writeSetup tb addr data)] := rfl
        rw [hTi, h1, hAi]
        simp
      · exact h2
      · exact h3
      · show ApbBus.mk tb3.ins.bus.paddr tb3.ins.bus.pwdata tb3.ins.bus.pstrb 0 0 0 =
          ⟨addr, data, 0xF, 0, 0, 0⟩
        rw [h7]
        rfl
  · unfold ChiselSpi.apb_read at hr
    rcases hL : loopWait (ChiselSpi.tick mr) (fun x => mr.ready x.st) fuelr
        (ChiselSpi.enAccess (ChiselSpi.tick mr (ChiselSpi.readSetup tbr addr2))) with _ | tb3
    · rw [hL] at hr; exact absurd hr (by simp)
    · rw [hL] at hr
      have hpair := Option.some.inj hr
      have htbr2 : tbr2 = ChiselSpi.tick mr (ChiselSpi.idleR tb3) :=
        (congrArg Prod.fst hpair).symm
      have hv : v = mr.rdata tb3.st := (congrArg Prod.snd hpair).symm
      subst htbr2
      obtain ⟨l, e, h1, h2, h3, h4, h5, h6, h7, h8⟩ := chiselWaitSpec mr fuelr _ _ hL
      refine ⟨ChiselSpi.evOf mr (ChiselSpi.readSetup tbr addr2), l, e,
              ChiselSpi.evOf mr (ChiselSpi.idleR tb3), ?_, rfl, ?_, ?_, h4, ?_, ?_,
              rfl, rfl, (congrArg ApbBus.pwrite h7).trans rfl⟩
      · have hTi : (ChiselSpi.tick mr (ChiselSpi.idleR tb3)).ticks =
            tb3.ticks ++ [ChiselSpi.evOf mr (ChiselSpi.idleR tb3)] := rfl
        have hAi : (ChiselSpi.enAccess (ChiselSpi.tick mr
            (ChiselSpi.readSetup tbr addr2))).ticks =
            tbr.ticks ++ [ChiselSpi.evOf mr (ChiselSpi.readSetup tbr addr2)] := rfl
        rw [hTi, h1, hAi]
        simp
      · exact h2
      · exact h3
      · exact hv.trans h5.symm
      · show ApbBus.mk tb3.ins.bus.paddr tb3.ins.bus.pwdata tb3.ins.bus.pstrb
            tb3.ins.bus.pwrite 0 0 = ⟨addr2, tbr.ins.bus.pwdata, 0xF, 0, 0, 0⟩
        rw [h7]
        rfl

/-- Witness for C2: a concrete completed write and read against the
zero-wait-state model, with the discharged conclusions that the bus
request lines read de-asserted afterwards and the read returned the
sampled data. -/
theorem claim_C2_witness :
    ChiselSpi.apb_write ChiselSpi.MRdy 1 ChiselSpi.TB0 4 5 = some W2w ∧
    ChiselSpi.apb_read ChiselSpi.MRdy 1 ChiselSpi.TB0 4 = some (W2r.1, W2r.2) ∧
    W2w.ins.bus.psel = 0 ∧ W2w.ins.bus.penable = 0 ∧ W2w.ins.bus.pwrite = 0 ∧
    W2r.1.ins.bus.psel = 0 ∧ W2r.1.ins.bus.penable = 0 ∧ W2r.2 = 7 := by
  have hw : ChiselSpi.apb_write ChiselSpi.MRdy 1 ChiselSpi.TB0 4 5 = some W2w := rfl
  have hr : ChiselSpi.apb_read ChiselSpi.MRdy 1 ChiselSpi.TB0 4 = some (W2r.1, W2r.2) := rfl
  have h := claim_C2_handshake_three_phase ChiselSpi.MRdy ChiselSpi.MRdy 1 1 4 5 4 W2r.2
    ChiselSpi.TB0 W2w ChiselSpi.TB0 W2r.1 hw hr
  obtain ⟨_, _, _, _, _, _, _, _, _, _, hp1, hp2, hp3⟩ := h.1
  obtain ⟨_, _, _, _, _, _, _, _, _, _, _, hq1, hq2, _⟩ := h.2
  exact ⟨hw, hr, hp1, hp2, hp3, hq1, hq2, rfl⟩

/-- Claim C3: in the QSPI/PSRAM bus master, after readiness is first
observed the enable line is held asserted for exactly one extra edge
(the grace tick, with `psel` and `penable` still 1) before `psel` and
`penable` are de-asserted, for both writes and reads. -/
theorem claim_C3_qspi_grace_period {S T : Type}
    (m : Model QspiPsram.Ins S) (mr : Model QspiPsram.Ins T)
    (addr data strb addr2 v : Nat)
    (tb tbw : TB QspiPsram.Ins S) (tbr tbr2 : TB QspiPsram.Ins T)
    (hw : QspiPsram.apb_write m tb addr data strb = (tbw, true))
    (hr : QspiPsram.apb_read mr tbr addr2 = (tbr2, v, true)) :
    (∃ eS l eR eG eI,
      tbw.ticks = tb.ticks ++ [eS] ++ l ++ [eR, eG, eI] ∧
      (∀ x ∈ l, x.ready = false) ∧ eR.ready = true ∧
      eG.ins.bus.psel = 1 ∧ eG.ins.bus.penable = 1 ∧
      eI.ins.bus.psel = 0 ∧ eI.ins.bus.penable = 0) ∧
    (∃ eS l eR eG eI,
      tbr2.ticks = tbr.ticks ++ [eS] ++ l ++ [eR, eG, eI] ∧
      (∀ x ∈ l, x.ready = false) ∧ eR.ready = true ∧
      eG.ins.bus.psel = 1 ∧ eG.ins.bus.penable = 1 ∧
      eI.ins.bus.psel = 0 ∧ eI.ins.bus.penable = 0) := by
  constructor
  · rcases hp : loopWaitB (QspiPsram.tick m) (fun x => m.ready x.st) QspiPsram.MAX_CYCLES
        (QspiPsram.enAccess (QspiPsram.tick m (QspiPsram.writeSetup tb addr data strb)))
      with ⟨x, b⟩
    unfold QspiPsram.apb_write at hw
    rw [hp] at hw
    cases b with
    | false =>
      exact absurd (show (false : Bool) = true from congrArg Prod.snd hw) (by simp)
    | true =>
      have htbw : tbw = QspiPsram.tick m (QspiPsram.idleW (QspiPsram.tick m x)) :=
        (congrArg Prod.fst hw).symm
      subst htbw
      obtain ⟨l, e, h1, h2, h3, h4, h5, h6, h7, h8⟩ :=
        qspiWaitSpec m QspiPsram.MAX_CYCLES _ x hp
      refine ⟨QspiPsram.evOf m (QspiPsram.writeSetup tb addr data strb), l, e,
        QspiPsram.evOf m x,
        QspiPsram.evOf m (QspiPsram.idleW (QspiPsram.tick m x)), ?_,
        fun y hy => (h2 y hy).2, h4,
        (congrArg ApbBus.psel h7).trans rfl,
        (congrArg ApbBus.penable h7).trans rfl, rfl, rfl⟩
      have hT : (QspiPsram.tick m (QspiPsram.idleW (QspiPsram.tick m x))).ticks =
          (x.ticks ++ [QspiPsram.evOf m x]) ++
          [QspiPsram.evOf m (QspiPsram.idleW (QspiPsram.tick m x))] := rfl
      have hA : (QspiPsram.enAccess (QspiPsram.tick m
          (QspiPsram.writeSetup tb addr data strb))).ticks =
          tb.ticks ++ [QspiPsram.evOf m (QspiPsram.writeSetup tb addr data strb)] := rfl
      rw [hT, h1, hA]
      simp
  · rcases hp : loopWaitB (QspiPsram.tick mr) (fun x => mr.ready x.st) QspiPsram.MAX_CYCLES
        (QspiPsram.enAccess (QspiPsram.tick mr (QspiPsram.readSetup tbr addr2)))
      with ⟨x, b⟩
    unfold QspiPsram.apb_read at hr
    rw [hp] at hr
    cases b with
    | false =>
      exact absurd (show (false : Bool) = true from congrArg (fun p => p.2.2) hr) (by simp)
    | true =>
      have htbr2 : tbr2 = QspiPsram.tick mr (QspiPsram.idleR (QspiPsram.tick mr x)) :=
        (congrArg Prod.fst hr).symm
      subst htbr2
      obtain ⟨l, e, h1, h2, h3, h4, h5, h6, h7, h8⟩ :=
        qspiWaitSpec mr QspiPsram.MAX_CYCLES _ x hp
      refine ⟨QspiPsram.evOf mr (QspiPsram.readSetup tbr addr2), l, e,
        QspiPsram.evOf mr x,
        QspiPsram.evOf mr (QspiPsram.idleR (QspiPsram.tick mr x)), ?_,
        fun y hy => (h2 y hy).2, h4,
        (congrArg ApbBus.psel h7).trans rfl,
        (congrArg ApbBus.penable h7).trans rfl, rfl, rfl⟩
      have hT : (QspiPsram.tick mr (QspiPsram.idleR (QspiPsram.tick mr x))).ticks =
          (x.ticks ++ [QspiPsram.evOf mr x]) ++
          [QspiPsram.evOf mr (QspiPsram.idleR (QspiPsram.tick mr x))] := rfl
      have hA : (QspiPsram.enAccess (QspiPsram.tick mr
          (QspiPsram.readSetup tbr addr2))).ticks =
          tbr.ticks ++ [QspiPsram.evOf mr (QspiPsram.readSetup tbr addr2)] := rfl
      rw [hT, h1, hA]
      simp

/-- Witness for C3: a concrete completed QSPI write and read against
the always-ready model, with the grace-edge decomposition obtained from
the theorem. -/
theorem claim_C3_witness :
    QspiPsram.apb_write QspiPsram.MDead QspiPsram.TB0 4 5 0xF = (W3w.1, true) ∧
    QspiPsram.apb_read QspiPsram.MDead QspiPsram.TB0 4 = (W3r.1, W3r.2.1, true) ∧
    (∃ eS l eR eG eI,
      W3w.1.ticks = QspiPsram.TB0.ticks ++ [eS] ++ l ++ [eR, eG, eI] ∧
      (∀ x ∈ l, x.ready = false) ∧ eR.ready = true ∧
      eG.ins.bus.psel = 1 ∧ eG.ins.bus.penable = 1 ∧
      eI.ins.bus.psel = 0 ∧ eI.ins.bus.penable = 0) ∧
    (∃ eS l eR eG eI,
      W3r.1.ticks = QspiPsram.TB0.ticks ++ [eS] ++ l ++ [eR, eG, eI] ∧
      (∀ x ∈ l, x.ready = false) ∧ eR.ready = true ∧
      eG.ins.bus.psel = 1 ∧ eG.ins.bus.penable = 1 ∧
      eI.ins.bus.psel = 0 ∧ eI.ins.bus.penable = 0) := by
  have hw : QspiPsram.apb_write QspiPsram.MDead QspiPsram.TB0 4 5 0xF = (W3w.1, true) := rfl
  have hr : QspiPsram.apb_read QspiPsram.MDead QspiPsram.TB0 4 = (W3r.1, W3r.2.1, true) := rfl
  have h := claim_C3_qspi_grace_period QspiPsram.MDead QspiPsram.MDead 4 5 0xF 4 W3r.2.1
    QspiPsram.TB0 W3w.1 QspiPsram.TB0 W3r.1 hw hr
  exact ⟨hw, hr, h.1, h.2⟩

/-- Claim C1 (divergence witness for the code bug): the wait loops of
`apb_write` in `sim_bitrev_spi.cpp` and `wb_read` in `sim_spi_top.cpp`
have no iteration ceiling — against a model that never asserts the
readiness/acknowledge signal, the operation fails to return within ANY
finite number of wait iterations, logs nothing, and produces no sentinel
outcome; it spins forever, contradicting the claimed bounded-timeout
policy. -/
theorem claim_C1_unbounded_wait_spins_forever :
    (∀ (fuel : Nat) (tb : TB BitrevSpi.Ins Unit) (addr data : Nat),
      BitrevSpi.apb_write BitrevSpi.MNever fuel tb addr data = none) ∧
    (∀ (fuel : Nat) (tb : TB SpiTop.Ins Unit) (addr : Nat),
      SpiTop.wb_read SpiTop.MNever fuel tb addr = none) := by
  constructor
  · intro fuel tb addr data
    unfold BitrevSpi.apb_write
    rw [loopWait_none (BitrevSpi.tick BitrevSpi.MNever)
      (fun x => BitrevSpi.MNever.ready x.st) (fun _ => rfl) fuel]
  · intro fuel tb addr
    unfold SpiTop.wb_read
    rw [loopWait_none (SpiTop.tick SpiTop.MNever)
      (fun x => SpiTop.MNever.ready x.st) (fun _ => rfl) fuel]

/-- Counterexample to C4 as stated: the claim says every edge-driver
call first drives the clock high, then low; but `tick()` of
`sim_spi_top.cpp` evaluates its first phase with `wb_clk_i = 0` and its
second with `wb_clk_i = 1` — the opposite order. -/
theorem claim_C4_counterexample :
    (SpiTop.tick SpiTop.MNever SpiTop.TB0).evals.map SpiTop.Ins.wb_clk_i = [0, 1] ∧
    ¬ (SpiTop.tick SpiTop.MNever SpiTop.TB0).evals.map SpiTop.Ins.wb_clk_i = [1, 0] := by
  exact ⟨rfl, by decide⟩

/-- Claim C4 (amended): every call to either edge driver performs two
phases, each applying the MOSI→MISO feedback wiring before evaluating
the model and notifying the trace sink with the current virtual-clock
value after it, and increments the virtual clock counter by exactly two;
`sim_chisel_spi.cpp` drives the clock high in the first phase and low in
the second, while `sim_spi_top.cpp` drives it low first and high second. -/
theorem claim_C4_edge_driver_two_phase {S T : Type}
    (m : Model ChiselSpi.Ins S) (tb : TB ChiselSpi.Ins S)
    (mw : Model SpiTop.Ins T) (tbw : TB SpiTop.Ins T) :
    (∃ i1 i2,
      (ChiselSpi.tick m tb).evals = tb.evals ++ [i1, i2] ∧
      i1.clock = 1 ∧ i1.misoPadI = m.fb tb.st ∧ i1.bus = tb.ins.bus ∧
      i2.clock = 0 ∧ i2.misoPadI = m.fb (m.eval tb.st i1) ∧ i2.bus = tb.ins.bus ∧
      (ChiselSpi.tick m tb).st = m.eval (m.eval tb.st i1) i2 ∧
      (ChiselSpi.tick m tb).simTime = tb.simTime + 2 ∧
      (ChiselSpi.tick m tb).dumps = tb.dumps ++ [tb.simTime, tb.simTime + 1]) ∧
    (∃ i1 i2,
      (SpiTop.tick mw tbw).evals = tbw.evals ++ [i1, i2] ∧
      i1.wb_clk_i = 0 ∧ i1.miso_pad_i = mw.fb tbw.st ∧ i1.bus = tbw.ins.bus ∧
      i2.wb_clk_i = 1 ∧ i2.miso_pad_i = mw.fb (mw.eval tbw.st i1) ∧ i2.bus = tbw.ins.bus ∧
      (SpiTop.tick mw tbw).st = mw.eval (mw.eval tbw.st i1) i2 ∧
      (SpiTop.tick mw tbw).simTime = tbw.simTime + 2 ∧
      (SpiTop.tick mw tbw).dumps = tbw.dumps ++ [tbw.simTime, tbw.simTime + 1]) := by
  constructor
  · exact ⟨{ tb.ins with clock := 1, misoPadI := m.fb tb.st }, _,
      rfl, rfl, rfl, rfl, rfl, rfl, rfl, rfl, rfl, rfl⟩
  · exact ⟨{ tbw.ins with wb_clk_i := 0, miso_pad_i := mw.fb tbw.st }, _,
      rfl, rfl, rfl, rfl, rfl, rfl, rfl, rfl, rfl, rfl⟩

/-- Claim C5: `check(name, expected, actual, mask)` masks both values,
compares the masked values, increments exactly one of the two counters
(pass on equality, fail otherwise), emits exactly one human-readable
record carrying the masked values, and touches no other state (the
function is total, so it never raises). -/
theorem claim_C5_check_oracle (name : String) (expected actual mask : Nat)
    (cs : Oracle.CheckState) :
    (Oracle.check name expected actual mask cs).test_pass +
      (Oracle.check name expected actual mask cs).test_fail =
      cs.test_pass + cs.test_fail + 1 ∧
    (Oracle.check name expected actual mask cs).test_pass =
      cs.test_pass + (if actual &&& mask = expected &&& mask then 1 else 0) ∧
    (Oracle.check name expected actual mask cs).test_fail =
      cs.test_fail + (if actual &&& mask = expected &&& mask then 0 else 1) ∧
    (Oracle.check name expected actual mask cs).records =
      cs.records ++ [(if actual &&& mask = expected &&& mask then
        ((true : Bool), name, expected &&& mask, actual &&& mask) else
        ((false : Bool), name, expected &&& mask, actual &&& mask))] := by
  by_cases h : actual &&& mask = expected &&& mask <;>
    simp [Oracle.check, h] <;> omega

/-- Claim C6: the process exit status is 0 if and only if the fail
counter is zero at the end of the run, and it depends only on the fail
counter — any two final states with the same fail count exit alike,
regardless of the pass count. -/
theorem claim_C6_exit_status (cs : Oracle.CheckState) :
    (Oracle.main_exit cs = 0 ↔ cs.test_fail = 0) ∧
    (∀ cs2 : Oracle.CheckState, cs.test_fail = cs2.test_fail →
      Oracle.main_exit cs = Oracle.main_exit cs2) := by
  constructor
  · unfold Oracle.main_exit
    by_cases h : cs.test_fail > 0 <;> simp [h] <;> omega
  · intro cs2 h
    unfold Oracle.main_exit
    rw [h]

/-- Witness for C6: a failure-free run exits 0, and the exit status of
a run with 2 failures does not depend on its pass count. -/
theorem claim_C6_witness :
    Oracle.main_exit { test_pass := 5, test_fail := 0, records := [] } = 0 ∧
    Oracle.main_exit { test_pass := 5, test_fail := 2, records := [] } =
      Oracle.main_exit { test_pass := 0, test_fail := 2, records := [] } :=
  ⟨(claim_C6_exit_status { test_pass := 5, test_fail := 0, records := [] }).1.mpr rfl,
   (claim_C6_exit_status { test_pass := 5, test_fail := 2, records := [] }).2
     { test_pass := 0, test_fail := 2, records := [] } rfl⟩

/-- Claim C7: the reset sequencers of `sim_bitrev_spi.cpp` and
`sim_spi_top.cpp` drive the active-high reset, clear every request
signal field to zero, advance the edge driver 10 times with reset held
active and all request lines de-asserted throughout, then release reset
and advance exactly one further edge; on return every bus request line
still reads zero, so no transaction is outstanding. -/
theorem claim_C7_reset_sequencer {S T : Type}
    (m : Model BitrevSpi.Ins S) (tb : TB BitrevSpi.Ins S)
    (mw : Model SpiTop.Ins T) (tbw : TB SpiTop.Ins T) :
    (∃ l e, (BitrevSpi.do_reset m tb).ticks = tb.ticks ++ l ++ [e] ∧
      l.length = 10 ∧
      (∀ x ∈ l, x.ins.reset = 1 ∧ x.ins.bus = ⟨0, 0, 0, 0, 0, 0⟩) ∧
      e.ins.reset = 0 ∧ e.ins.bus = ⟨0, 0, 0, 0, 0, 0⟩ ∧
      (BitrevSpi.do_reset m tb).ins.bus = ⟨0, 0, 0, 0, 0, 0⟩) ∧
    (∃ l e, (SpiTop.reset mw tbw).ticks = tbw.ticks ++ l ++ [e] ∧
      l.length = 10 ∧
      (∀ x ∈ l, x.ins.wb_rst_i = 1 ∧ x.ins.bus = ⟨0, 0, 0, 0, 0, 0⟩) ∧
      e.ins.wb_rst_i = 0 ∧ e.ins.bus = ⟨0, 0, 0, 0, 0, 0⟩ ∧
      (SpiTop.reset mw tbw).ins.bus = ⟨0, 0, 0, 0, 0, 0⟩) := by
  constructor
  · obtain ⟨l, h1, h2, h3, h4⟩ := tickN_spec (BitrevSpi.tick m) TB.ticks
      (BitrevSpi.evOf m)
      (fun a => a.ins.reset = 1 ∧ a.ins.bus = ⟨0, 0, 0, 0, 0, 0⟩)
      (fun x => x.ins.reset = 1 ∧ x.ins.bus = ⟨0, 0, 0, 0, 0, 0⟩)
      (fun _ => rfl) (fun _ h => h) (fun _ h => h) 10
      (BitrevSpi.rstOn tb) ⟨rfl, rfl⟩
    refine ⟨l,
      BitrevSpi.evOf m (BitrevSpi.rstOff (tickN (BitrevSpi.tick m) 10 (BitrevSpi.rstOn tb))),
      ?_, h2, h3, rfl, h4.2, h4.2⟩
    have hD : (BitrevSpi.do_reset m tb).ticks =
        (tickN (BitrevSpi.tick m) 10 (BitrevSpi.rstOn tb)).ticks ++
        [BitrevSpi.evOf m (BitrevSpi.rstOff
          (tickN (BitrevSpi.tick m) 10 (BitrevSpi.rstOn tb)))] := rfl
    have hZ : (BitrevSpi.rstOn tb).ticks = tb.ticks := rfl
    rw [hD, h1, hZ]
  · obtain ⟨l, h1, h2, h3, h4⟩ := tickN_spec (SpiTop.tick mw) TB.ticks
      (SpiTop.evOf mw)
      (fun a => a.ins.wb_rst_i = 1 ∧ a.ins.bus = ⟨0, 0, 0, 0, 0, 0⟩)
      (fun x => x.ins.wb_rst_i = 1 ∧ x.ins.bus = ⟨0, 0, 0, 0, 0, 0⟩)
      (fun _ => rfl) (fun _ h => h) (fun _ h => h) 10
      (SpiTop.rstOn tbw) ⟨rfl, rfl⟩
    refine ⟨l,
      SpiTop.evOf mw (SpiTop.rstOff (tickN (SpiTop.tick mw) 10 (SpiTop.rstOn tbw))),
      ?_, h2, h3, rfl, h4.2, h4.2⟩
    have hD : (SpiTop.reset mw tbw).ticks =
        (tickN (SpiTop.tick mw) 10 (SpiTop.rstOn tbw)).ticks ++
        [SpiTop.evOf mw (SpiTop.rstOff
          (tickN (SpiTop.tick mw) 10 (SpiTop.rstOn tbw)))] := rfl
    have hZ : (SpiTop.rstOn tbw).ticks = tbw.ticks := rfl
    rw [hD, h1, hZ]

/-- `wb_read` never prints: it preserves the timeout-message count. -/
theorem wb_read_errs {S : Type} (m : Model SpiTop.Ins S) (fuel : Nat)
    (tb tb2 : TB SpiTop.Ins S) (addr v : Nat)
    (h : SpiTop.wb_read m fuel tb addr = some (tb2, v)) : tb2.errs = tb.errs := by
  unfold SpiTop.wb_read at h
  rcases hL : loopWait (SpiTop.tick m) (fun x => m.ready x.st) fuel
      (SpiTop.readStart tb addr) with _ | tb3
  · rw [hL] at h; exact absurd h (by simp)
  · rw [hL] at h
    have ht : tb2 = SpiTop.tick m (SpiTop.tearR tb3) :=
      (congrArg Prod.fst (Option.some.inj h)).symm
    have he := loopWait_errs (SpiTop.tick m) (fun x => m.ready x.st) TB.errs
      (fun _ => rfl) fuel _ _ hL
    rw [ht]
    exact he

/-- Claim C8: `wait_xfer_done` polls the control register through the
single-cycle-ack bus master (`wb_read`), returns success as soon as the
GO bit reads clear (every earlier read saw it set), and when the flag
never clears it performs exactly the `timeout` number of reads, logs the
timeout, and returns failure; its default timeout argument is 100000. -/
theorem claim_C8_wait_xfer_done {S : Type} (m : Model SpiTop.Ins S) (fuel : Nat) :
    (∀ (t : Nat) (tb tb2 : TB SpiTop.Ins S) (ok : Bool) (vs : List Nat),
      SpiTop.wait_xfer_done m fuel t tb = some (tb2, ok, vs) →
      vs.length ≤ t ∧
      (ok = true → ∃ pre v0, vs = pre ++ [v0] ∧ v0 &&& SpiTop.CTRL_GO = 0 ∧
        (∀ v ∈ pre, ¬ v &&& SpiTop.CTRL_GO = 0) ∧ tb2.errs = tb.errs) ∧
      (ok = false → vs.length = t ∧ (∀ v ∈ vs, ¬ v &&& SpiTop.CTRL_GO = 0) ∧
        tb2.errs = tb.errs + 1)) ∧
    (∀ tb : TB SpiTop.Ins S, SpiTop.wait_xfer_done_default m fuel tb =
      SpiTop.wait_xfer_done m fuel 100000 tb) := by
  constructor
  · intro t
    induction t with
    | zero =>
      intro tb tb2 ok vs h
      simp only [SpiTop.wait_xfer_done] at h
      have h' := Option.some.inj h
      have h1 : ({ tb with errs := tb.errs + 1 } : TB SpiTop.Ins S) = tb2 :=
        congrArg Prod.fst h'
      have h2 : (false : Bool) = ok := congrArg (fun p => p.2.1) h'
      have h3 : ([] : List Nat) = vs := congrArg (fun p => p.2.2) h'
      subst h1; subst h2; subst h3
      refine ⟨by simp, ?_, ?_⟩
      · intro hx; exact absurd hx (by simp)
      · intro _; exact ⟨rfl, by intro v hv; simp at hv, rfl⟩
    | succ t ih =>
      intro tb tb2 ok vs h
      simp only [SpiTop.wait_xfer_done] at h
      rcases hR : SpiTop.wb_read m fuel tb SpiTop.ADDR_CTRL with _ | p
      · rw [hR] at h; exact absurd h (by simp)
      · obtain ⟨tb1, ctrl⟩ := p
        rw [hR] at h
        replace h : (if ctrl &&& SpiTop.CTRL_GO = 0 then some (tb1, true, [ctrl])
            else match SpiTop.wait_xfer_done m fuel t tb1 with
              | none => none
              | some (a, b, c) => some (a, b, ctrl :: c)) = some (tb2, ok, vs) := h
        have herr : tb1.errs = tb.errs := wb_read_errs m fuel tb tb1 SpiTop.ADDR_CTRL ctrl hR
        by_cases hgo : ctrl &&& SpiTop.CTRL_GO = 0
        · rw [if_pos hgo] at h
          have h' := Option.some.inj h
          have h1 : tb1 = tb2 := congrArg Prod.fst h'
          have h2 : (true : Bool) = ok := congrArg (fun p => p.2.1) h'
          have h3 : ([ctrl] : List Nat) = vs := congrArg (fun p => p.2.2) h'
          subst h1; subst h2; subst h3
          refine ⟨by simp, ?_, ?_⟩
          · intro _
            exact ⟨[], ctrl, by simp, hgo, by intro v hv; simp at hv, herr⟩
          · intro hx; exact absurd hx (by simp)
        · rw [if_neg hgo] at h
          rcases hW : SpiTop.wait_xfer_done m fuel t tb1 with _ | q
          · rw [hW] at h; exact absurd h (by simp)
          · obtain ⟨tb3, ok3, vs3⟩ := q
            rw [hW] at h
            replace h : some (tb3, ok3, ctrl :: vs3) = some (tb2, ok, vs) := h
            have h' := Option.some.inj h
            have h1 : tb3 = tb2 := congrArg Prod.fst h'
            have h2 : ok3 = ok := congrArg (fun p => p.2.1) h'
            have h3 : (ctrl :: vs3 : List Nat) = vs := congrArg (fun p => p.2.2) h'
            subst h1; subst h2; subst h3
            obtain ⟨ih1, ih2, ih3⟩ := ih tb1 tb3 ok3 vs3 hW
            refine ⟨by simpa using Nat.succ_le_succ ih1, ?_, ?_⟩
            · intro hok
              obtain ⟨pre, v0, hv1, hv2, hv3, hv4⟩ := ih2 hok
              refine ⟨ctrl :: pre, v0, by simp [hv1], hv2, ?_, hv4.trans herr⟩
              intro v hv
              rcases List.mem_cons.mp hv with rfl | hv
              · exact hgo
              · exact hv3 v hv
            · intro hok
              obtain ⟨hl, hall, he⟩ := ih3 hok
              refine ⟨by simp [hl], ?_, by rw [he, herr]⟩
              intro v hv
              rcases List.mem_cons.mp hv with rfl | hv
              · exact hgo
              · exact hall v hv
  · intro tb
    rfl

/-- Witness for C8: against a model whose GO bit never clears, a
`wait_xfer_done` with iteration budget 2 performs exactly 2 reads (all
with GO set), logs the timeout, and returns failure. -/
theorem claim_C8_witness :
    SpiTop.wait_xfer_done SpiTop.MGo 2 2 SpiTop.TB0 = some (W8.1, W8.2.1, W8.2.2) ∧
    W8.2.1 = false ∧ W8.2.2.length = 2 ∧
    (∀ v ∈ W8.2.2, ¬ v &&& SpiTop.CTRL_GO = 0) ∧
    W8.1.errs = SpiTop.TB0.errs + 1 := by
  have h : SpiTop.wait_xfer_done SpiTop.MGo 2 2 SpiTop.TB0 =
      some (W8.1, W8.2.1, W8.2.2) := rfl
  have hm := (claim_C8_wait_xfer_done SpiTop.MGo 2).1 2 SpiTop.TB0 W8.1 W8.2.1 W8.2.2 h
  have hok : W8.2.1 = false := rfl
  obtain ⟨hl, hall, he⟩ := hm.2.2 hok
  exact ⟨h, hok, hl, hall, he⟩

/-- Claim C9: the PSRAM storage collaborator is addressed modulo its
2^20-byte capacity — a written byte is read back at the same address and
at the address 2^20 higher, a write 2^20 higher lands at the same cell,
and plain reads at `a` and `a + 2^20` alias. -/
theorem claim_C9_psram_addressing (mem : QspiPsram.PsramMem) (a d : Nat)
    (hd : d < 256) :
    QspiPsram.psram_read (QspiPsram.psram_write mem a d) a = d ∧
    QspiPsram.psram_read (QspiPsram.psram_write mem a d) (a + 2 ^ 20) = d ∧
    QspiPsram.psram_read (QspiPsram.psram_write mem (a + 2 ^ 20) d) a = d ∧
    QspiPsram.psram_read mem (a + 2 ^ 20) = QspiPsram.psram_read mem a := by
  have hidx : ∀ n : Nat, (n % 2 ^ 32) &&& 0xFFFFF = n % 2 ^ 20 := by
    intro n
    have h1 : (0xFFFFF : Nat) = 2 ^ 20 - 1 := by norm_num
    rw [h1, Nat.and_pow_two_sub_one_eq_mod,
      Nat.mod_mod_of_dvd n (pow_dvd_pow 2 (by norm_num))]
  have ha : ((a + 2 ^ 20) % 2 ^ 32) &&& 0xFFFFF = (a % 2 ^ 32) &&& 0xFFFFF := by
    rw [hidx, hidx, Nat.add_mod_right]
  unfold QspiPsram.psram_read QspiPsram.psram_write
  refine ⟨?_, ?_, ?_, ?_⟩
  · simp [Nat.mod_eq_of_lt hd]
  · rw [ha]; simp [Nat.mod_eq_of_lt hd]
  · rw [ha]; simp [Nat.mod_eq_of_lt hd]
  · rw [ha]

/-- Witness for C9: round trip and aliasing at address 3 with byte 7
over the all-zero store. -/
theorem claim_C9_witness :
    QspiPsram.psram_read (QspiPsram.psram_write (fun _ => 0) 3 7) 3 = 7 ∧
    QspiPsram.psram_read (QspiPsram.psram_write (fun _ => 0) 3 7) (3 + 2 ^ 20) = 7 ∧
    QspiPsram.psram_read (QspiPsram.psram_write (fun _ => 0) (3 + 2 ^ 20) 7) 3 = 7 ∧
    QspiPsram.psram_read (fun _ => 0) (3 + 2 ^ 20) = QspiPsram.psram_read (fun _ => 0) 3 :=
  claim_C9_psram_addressing (fun _ => 0) 3 7 (by norm_num)

/-- Claim C10: the QSPI `apb_read` timeout sentinel `0xDEADBEEF` is also
a legal stored data word of the same program (Test 4 writes it), so a
timed-out read (against a never-ready model, which also logs a timeout)
and a successful read (against a model serving the stored `0xDEADBEEF`)
return identical values — the caller cannot recover the completion
status of a read from its return value alone. -/
theorem claim_C10_timeout_sentinel_ambiguity :
    (QspiPsram.apb_read QspiPsram.MNever QspiPsram.TB0 0x400).2.1 = 0xDEADBEEF ∧
    (QspiPsram.apb_read QspiPsram.MNever QspiPsram.TB0 0x400).2.2 = false ∧
    (QspiPsram.apb_read QspiPsram.MNever QspiPsram.TB0 0x400).1.errs =
      QspiPsram.TB0.errs + 1 ∧
    (QspiPsram.apb_read QspiPsram.MDead QspiPsram.TB0 0x400).2.1 = 0xDEADBEEF ∧
    (QspiPsram.apb_read QspiPsram.MDead QspiPsram.TB0 0x400).2.2 = true ∧
    (QspiPsram.apb_read QspiPsram.MDead QspiPsram.TB0 0x400).1.errs =
      QspiPsram.TB0.errs ∧
    (QspiPsram.apb_read QspiPsram.MNever QspiPsram.TB0 0x400).2.1 =
      (QspiPsram.apb_read QspiPsram.MDead QspiPsram.TB0 0x400).2.1 ∧
    (0xDEADBEEF : Nat) ∈ QspiPsram.test4_vals := by
  have hn := loopWaitB_never (QspiPsram.tick QspiPsram.MNever)
    (fun x => QspiPsram.MNever.ready x.st) TB.errs (fun _ => rfl) (fun _ => rfl)
    QspiPsram.MAX_CYCLES
    (QspiPsram.enAccess (QspiPsram.tick QspiPsram.MNever
      (QspiPsram.readSetup QspiPsram.TB0 0x400)))
  rcases hp : loopWaitB (QspiPsram.tick QspiPsram.MNever)
      (fun x => QspiPsram.MNever.ready x.st) QspiPsram.MAX_CYCLES
      (QspiPsram.enAccess (QspiPsram.tick QspiPsram.MNever
        (QspiPsram.readSetup QspiPsram.TB0 0x400))) with ⟨x, b⟩
  rw [hp] at hn
  have hb : b = false := hn.1
  subst hb
  have hread : QspiPsram.apb_read QspiPsram.MNever QspiPsram.TB0 0x400 =
      ({ x with errs := x.errs + 1 }, 0xDEADBEEF, false) := by
    unfold QspiPsram.apb_read
    rw [hp]
    rfl
  refine ⟨?_, ?_, ?_, rfl, rfl, rfl, ?_, by decide⟩
  · rw [hread]
  · rw [hread]
  · rw [hread]
    exact congrArg (fun n => n + 1) hn.2
  · rw [hread]
    rfl

end SpiSim
